import Mathlib

/-
Verification of the ring independent-set selection core
(part1-threads/src/KnightSelection.cpp).

The shared state of one selection run is embedded as a structure holding
the two per-knight flag arrays and the selection counter.  Each
lock-protected critical section of the C++ code becomes one pure state
transformer:

  raiseHand        -- the locked check-and-set block of knightProcess
  lowerHand        -- the locked hand-lowering block of knightProcess
  commitKnight     -- the locked double-check-and-commit block of startSelection
  resetAllSignaling -- the periodic fill(handRaised, false) block
  snapshotEligible -- the locked candidate-collection block
  coordIteration   -- one iteration of the coordinator loop
  runLoop          -- the bounded coordinator loop (attempt budget as fuel)

Reachability under arbitrary interleavings of the atomic sections is the
inductive relation Reachable.
-/

namespace KnightSelection

/-- Shared mutable state of one selection run: the selected flags, the
hand-raised (signaling) flags and the selection counter. -/
structure KSState where
  selected : List Bool
  handRaised : List Bool
  selectedCount : Nat
deriving DecidableEq, Repr

/-- Left ring-neighbor, as computed by getNeighbors: (id - 1 + totalKnights) % totalKnights. -/
def leftNeighbor (totalKnights id : Nat) : Nat := (id + totalKnights - 1) % totalKnights

/-- Right ring-neighbor, as computed by getNeighbors: (id + 1) % totalKnights. -/
def rightNeighbor (totalKnights id : Nat) : Nat := (id + 1) % totalKnights

/-- getNeighbors from KnightSelection.cpp: the two-element neighbor list. -/
def getNeighbors (totalKnights id : Nat) : List Nat :=
  [leftNeighbor totalKnights id, rightNeighbor totalKnights id]

/-- Initial state built by the constructor: all flags false, counter zero. -/
def ksInit (totalKnights : Nat) : KSState :=
  ⟨List.replicate totalKnights false, List.replicate totalKnights false, 0⟩

/-- Read the selected flag of knight i (false out of range). -/
def sel (s : KSState) (i : Nat) : Bool := s.selected.getD i false

/-- Read the hand-raised flag of knight i (false out of range). -/
def hr (s : KSState) (i : Nat) : Bool := s.handRaised.getD i false

/-- The eligibility test of the locked block in knightProcess (identical to
canRaiseHand): not selected, hand not raised, and no neighbor with a raised
hand or selected. -/
def shouldRaise (totalKnights : Nat) (s : KSState) (id : Nat) : Bool :=
  (!sel s id && !hr s id) &&
    (getNeighbors totalKnights id).all (fun nb => !(hr s nb || sel s nb))

/-- The locked check-and-set block of knightProcess (lines 58-77): returns
whether the hand was raised, together with the successor state. -/
def tryMarkSignaling (totalKnights : Nat) (s : KSState) (id : Nat) : Bool × KSState :=
  if shouldRaise totalKnights s id then
    (true, { s with handRaised := s.handRaised.set id true })
  else
    (false, s)

/-- State effect of the worker hand-raise attempt. -/
def raiseHand (totalKnights : Nat) (s : KSState) (id : Nat) : KSState :=
  (tryMarkSignaling totalKnights s id).2

/-- The locked hand-lowering block of knightProcess (lines 84-87). -/
def lowerHand (s : KSState) (id : Nat) : KSState :=
  if !sel s id && hr s id then { s with handRaised := s.handRaised.set id false } else s

/-- The locked commit block of startSelection (lines 143-161): the double
check tests only that the candidate is not selected and still has its hand
raised; on success it selects the candidate, lowers its hand and the hands
of both neighbors, and increments the counter. -/
def commitKnight (totalKnights : Nat) (s : KSState) (chosen : Nat) : KSState :=
  if !sel s chosen && hr s chosen then
    { selected := s.selected.set chosen true
      handRaised :=
        (getNeighbors totalKnights chosen).foldl (fun h nb => h.set nb false)
          (s.handRaised.set chosen false)
      selectedCount := s.selectedCount + 1 }
  else
    s

/-- The periodic reset block of startSelection (lines 168-171):
fill(handRaised.begin(), handRaised.end(), false). -/
def resetAllSignaling (s : KSState) : KSState :=
  { s with handRaised := s.handRaised.map (fun _ => false) }

/-- The locked candidate-collection block of startSelection (lines 113-136):
knights with a raised hand, not selected, and with no selected neighbor. -/
def snapshotEligible (totalKnights : Nat) (s : KSState) : List Nat :=
  (List.range totalKnights).filter (fun i =>
    hr s i && !sel s i && (getNeighbors totalKnights i).all (fun nb => !sel s nb))

/-- One iteration of the coordinator loop (lines 110-173), after the attempt
counter has been incremented: collect the candidate pool; if non-empty,
commit the pseudo-randomly picked candidate; every 20th attempt, reset all
hands. -/
def coordIteration (totalKnights : Nat) (s : KSState) (attempts pick : Nat) : KSState :=
  let available := snapshotEligible totalKnights s
  let s1 :=
    if available.isEmpty then s
    else commitKnight totalKnights s (available.getD (pick % available.length) 0)
  if attempts % 20 == 0 then resetAllSignaling s1 else s1

/-- The bounded coordinator loop of startSelection: fuel is the remaining
attempt budget (maxAttempts - attempts), oracle a s is the state after the
worker activity interleaved before iteration a+1, pick a drives the
pseudo-random candidate choice.  Returns the final state and the final
value of the attempt counter. -/
def runLoop (totalKnights requiredKnights : Nat) (oracle : Nat → KSState → KSState)
    (pick : Nat → Nat) : Nat → Nat → KSState → KSState × Nat
  | 0, attempts, s => (s, attempts)
  | fuel + 1, attempts, s =>
    if s.selectedCount < requiredKnights then
      runLoop totalKnights requiredKnights oracle pick fuel (attempts + 1)
        (coordIteration totalKnights (oracle attempts s) (attempts + 1) (pick attempts))
    else
      (s, attempts)

/-- The error conditions construction can signal: the invalid_argument of
the guard in the constructor body, and the earlier failure of the member
initializers when a negative count, converted to the unsigned vector size
type, wraps to a huge value (a length or allocation failure, or undefined
behavior; in no case the invalid_argument of the guard). -/
inductive ConfigError where
  | invalidConfiguration
  | memberInitFailure
deriving DecidableEq, Repr

/-- The constructor (KnightSelection.cpp lines 9-21): the member
initializers selected(totalKnights, false) and handRaised(totalKnights,
false) run before the body, so a negative totalKnights faults there (the
int wraps to a huge unsigned size) and the guard is never reached; only
for totalKnights >= 0 does the body raise invalid_argument exactly when
totalKnights <= 0, requiredKnights <= 0 or requiredKnights > totalKnights.
Both counts are C++ ints, hence embedded as integers. -/
def mkKnightSelection (totalKnights requiredKnights : Int) : Except ConfigError KSState :=
  if totalKnights < 0 then
    Except.error ConfigError.memberInitFailure
  else if totalKnights ≤ 0 ∨ requiredKnights ≤ 0 ∨ requiredKnights > totalKnights then
    Except.error ConfigError.invalidConfiguration
  else
    Except.ok (ksInit totalKnights.toNat)

/-- Whether construction raised the InvalidConfiguration error (and not
some other failure). -/
def isInvalidConfig : Except ConfigError KSState → Bool
  | Except.error ConfigError.invalidConfiguration => true
  | _ => false

/-- The count loop of validateSelection: how many of the first totalKnights
entries of the selected array are true. -/
def countSelected (totalKnights : Nat) (selected : List Bool) : Nat :=
  ((List.range totalKnights).filter (fun i => selected.getD i false)).length

/-- validateSelection (lines 222-250): false when fewer than
requiredKnights entries are selected, false when some selected knight has a
selected neighbor, true otherwise. -/
def validateSelection (totalKnights requiredKnights : Nat) (selected : List Bool) : Bool :=
  if countSelected totalKnights selected < requiredKnights then false
  else
    (List.range totalKnights).all (fun i =>
      !(selected.getD i false) ||
        (getNeighbors totalKnights i).all (fun nb => !(selected.getD nb false)))

/-- getSelectedKnights (lines 210-220): the indices with a true selected
flag, collected in increasing index order. -/
def getSelectedKnights (totalKnights : Nat) (selected : List Bool) : List Nat :=
  (List.range totalKnights).filter (fun i => selected.getD i false)

/-- Ring distance between two indices, as in property P1 of the spec:
min(|i - j|, N - |i - j|). -/
def ringDist (totalKnights i j : Nat) : Nat :=
  min (max i j - min i j) (totalKnights - (max i j - min i j))

/-- One atomic critical section, executed by a worker or by the
coordinator. -/
inductive KStep (totalKnights : Nat) : KSState → KSState → Prop
  | raise (s : KSState) (id : Nat) (h : id < totalKnights) :
      KStep totalKnights s (raiseHand totalKnights s id)
  | lower (s : KSState) (id : Nat) (h : id < totalKnights) :
      KStep totalKnights s (lowerHand s id)
  | commit (s : KSState) (id : Nat) (h : id < totalKnights) :
      KStep totalKnights s (commitKnight totalKnights s id)
  | reset (s : KSState) : KStep totalKnights s (resetAllSignaling s)

/-- States reachable from the initial state by any interleaving of the
atomic critical sections. -/
inductive Reachable (totalKnights : Nat) : KSState → Prop
  | init : Reachable totalKnights (ksInit totalKnights)
  | step {s t : KSState} : Reachable totalKnights s → KStep totalKnights s t →
      Reachable totalKnights t

/-- One worker-side atomic section (hand raise or hand lower). -/
def WorkerStep (totalKnights : Nat) (u v : KSState) : Prop :=
  ∃ id, v = raiseHand totalKnights u id ∨ v = lowerHand u id

/-- An interference oracle that only performs worker-side atomic
sections. -/
def WorkerInterference (totalKnights : Nat) (oracle : Nat → KSState → KSState) : Prop :=
  ∀ a s, Relation.ReflTransGen (WorkerStep totalKnights) s (oracle a s)

/-- Inductive invariant of the shared state: well-formed array lengths, the
counter mirrors the number of selected knights, a raised hand has no
selected neighbor, and the selected knights form an independent set of the
ring. -/
structure Inv (totalKnights : Nat) (s : KSState) : Prop where
  lenSel : s.selected.length = totalKnights
  lenHr : s.handRaised.length = totalKnights
  countEq : s.selectedCount = s.selected.count true
  hrFree : ∀ i, i < totalKnights → hr s i = true →
    sel s (leftNeighbor totalKnights i) = false ∧ sel s (rightNeighbor totalKnights i) = false
  indep : ∀ i j, i < totalKnights → j < totalKnights → i ≠ j →
    sel s i = true → sel s j = true →
    j ≠ leftNeighbor totalKnights i ∧ j ≠ rightNeighbor totalKnights i

/-- A concrete completed selection on a five-knight ring: raise 0, commit 0,
raise 2, commit 2. -/
def wStateC1 : KSState :=
  commitKnight 5 (raiseHand 5 (commitKnight 5 (raiseHand 5 (ksInit 5) 0) 0) 2) 2

/-- A state in which knight 0 is selected and its neighbor knight 1 is
signaling: the claimed commit contract would make commit(1) a no-op. -/
def wStateC2 : KSState := ⟨[true, false, false], [false, true, false], 1⟩

/-- A state with knight 1 signaling and nothing else set. -/
def wStateC2b : KSState := ⟨[false, false, false], [false, true, false], 0⟩

/-- A state in which knight 0 is selected and no hand is raised: by claim
C3 the raise attempt of knight 1 would have to succeed, but the code also
refuses when a neighbor is selected. -/
def wStateC3 : KSState := ⟨[true, false, false], [false, false, false], 1⟩

/-- Reading an updated list entry at the updated index. -/
theorem getD_set_self (l : List Bool) (i : Nat) (a : Bool) (h : i < l.length) :
    (l.set i a).getD i false = a := by
  induction l generalizing i with
  | nil => simp at h
  | cons b t ih =>
    cases i with
    | zero => rfl
    | succ k =>
      have hk : k < t.length := by simpa using h
      simp only [List.set, List.getD, List.getElem?_cons_succ]
      exact ih k hk

/-- Reading an updated list entry at another index. -/
theorem getD_set_ne (l : List Bool) (i j : Nat) (a : Bool) (h : i ≠ j) :
    (l.set i a).getD j false = l.getD j false := by
  induction l generalizing i j with
  | nil => rfl
  | cons b t ih =>
    cases i with
    | zero =>
      cases j with
      | zero => exact absurd rfl h
      | succ m => rfl
    | succ k =>
      cases j with
      | zero => rfl
      | succ m =>
        simp only [List.set, List.getD, List.getElem?_cons_succ]
        exact ih k m (by omega)

/-- A constantly-false map reads false everywhere. -/
theorem getD_map_const (l : List Bool) (i : Nat) :
    (l.map (fun _ => false)).getD i false = false := by
  induction l generalizing i with
  | nil => rfl
  | cons b t ih =>
    cases i with
    | zero => rfl
    | succ k => exact ih k

/-- A replicate-false list reads false everywhere. -/
theorem getD_replicate_false (n i : Nat) : (List.replicate n false).getD i false = false := by
  induction n generalizing i with
  | zero => rfl
  | succ m ih =>
    cases i with
    | zero => rfl
    | succ k => exact ih k

/-- Clearing one entry can only lose true reads. -/
theorem getD_clear_true (l : List Bool) (i j : Nat)
    (h : (l.set i false).getD j false = true) : l.getD j false = true := by
  by_cases hij : i = j
  · subst hij
    by_cases hi : i < l.length
    · rw [getD_set_self l i false hi] at h
      exact absurd h (by simp)
    · rwa [List.set_eq_of_length_le (by omega)] at h
  · rwa [getD_set_ne l i j false hij] at h

/-- Setting a false entry to true raises the true-count by one. -/
theorem count_set_true (l : List Bool) (i : Nat) (hi : i < l.length)
    (h : l.getD i false = false) : (l.set i true).count true = l.count true + 1 := by
  induction l generalizing i with
  | nil => simp at hi
  | cons b t ih =>
    cases i with
    | zero =>
      have hb : b = false := h
      subst hb
      simp [List.count_cons]
    | succ k =>
      have hrec : (t.set k true).count true = t.count true + 1 :=
        ih k (by simpa using hi) (by simpa [List.getD] using h)
      simp [List.count_cons, hrec]
      omega

/-- A replicate-false list holds no true entry. -/
theorem count_replicate_false (n : Nat) : (List.replicate n false).count true = 0 := by
  induction n with
  | zero => rfl
  | succ m ih => simp [List.replicate, List.count_cons, ih]

/-- The left neighbor index stays inside the ring. -/
theorem left_lt (totalKnights id : Nat) (hN : 0 < totalKnights) :
    leftNeighbor totalKnights id < totalKnights := Nat.mod_lt _ hN

/-- The right neighbor index stays inside the ring. -/
theorem right_lt (totalKnights id : Nat) (hN : 0 < totalKnights) :
    rightNeighbor totalKnights id < totalKnights := Nat.mod_lt _ hN

/-- Moving left and then right returns to the same knight. -/
theorem right_left (totalKnights i : Nat) (hi : i < totalKnights) :
    rightNeighbor totalKnights (leftNeighbor totalKnights i) = i := by
  unfold rightNeighbor leftNeighbor
  rw [Nat.mod_add_mod]
  have h1 : i + totalKnights - 1 + 1 = i + totalKnights := by omega
  rw [h1, Nat.add_mod_right, Nat.mod_eq_of_lt hi]

/-- Moving right and then left returns to the same knight. -/
theorem left_right (totalKnights i : Nat) (hi : i < totalKnights) :
    leftNeighbor totalKnights (rightNeighbor totalKnights i) = i := by
  unfold rightNeighbor leftNeighbor
  have h1 : (i + 1) % totalKnights + totalKnights - 1
      = (i + 1) % totalKnights + (totalKnights - 1) := by omega
  rw [h1, Nat.mod_add_mod]
  have h2 : i + 1 + (totalKnights - 1) = i + totalKnights := by omega
  rw [h2, Nat.add_mod_right, Nat.mod_eq_of_lt hi]

/-- Being a left neighbor is the mirror of being a right neighbor. -/
theorem left_eq_iff (totalKnights i j : Nat) (hi : i < totalKnights) (hj : j < totalKnights) :
    leftNeighbor totalKnights i = j ↔ i = rightNeighbor totalKnights j := by
  constructor
  · intro h
    have h2 := right_left totalKnights i hi
    rw [← h2, h]
  · intro h
    rw [h]
    exact left_right totalKnights j hj

/-- Being a right neighbor is the mirror of being a left neighbor. -/
theorem right_eq_iff (totalKnights i j : Nat) (hi : i < totalKnights) (hj : j < totalKnights) :
    rightNeighbor totalKnights i = j ↔ i = leftNeighbor totalKnights j := by
  constructor
  · intro h
    have h2 := left_right totalKnights i hi
    rw [← h2, h]
  · intro h
    rw [h]
    exact right_left totalKnights j hj

/-- Ring distance one means the two knights are ring-neighbors. -/
theorem ringDist_eq_one (totalKnights i j : Nat) (hi : i < totalKnights) (hj : j < totalKnights)
    (hne : i ≠ j) (hd : ringDist totalKnights i j = 1) :
    j = leftNeighbor totalKnights i ∨ j = rightNeighbor totalKnights i := by
  unfold ringDist at hd
  unfold leftNeighbor rightNeighbor
  have h4 : (i < j ∧ (j = i + 1 ∨ (i = 0 ∧ j = totalKnights - 1))) ∨
      (j < i ∧ (i = j + 1 ∨ (j = 0 ∧ i = totalKnights - 1))) := by omega
  rcases h4 with ⟨hlt, h1 | ⟨hi0, hjN⟩⟩ | ⟨hlt, h1 | ⟨hj0, hiN⟩⟩
  · right
    rw [← h1, Nat.mod_eq_of_lt hj]
  · left
    subst hi0
    have h2 : 0 + totalKnights - 1 = totalKnights - 1 := by omega
    rw [h2, Nat.mod_eq_of_lt (by omega)]
    omega
  · left
    have h2 : i + totalKnights - 1 = (i - 1) + totalKnights := by omega
    rw [h2, Nat.add_mod_right, Nat.mod_eq_of_lt (by omega)]
    omega
  · right
    have h2 : i + 1 = totalKnights := by omega
    rw [h2, Nat.mod_self]
    omega

/-- The worker eligibility test, spelled out flag by flag. -/
theorem shouldRaise_spec (totalKnights : Nat) (s : KSState) (id : Nat) :
    shouldRaise totalKnights s id = true ↔
      sel s id = false ∧ hr s id = false ∧
      hr s (leftNeighbor totalKnights id) = false ∧
      sel s (leftNeighbor totalKnights id) = false ∧
      hr s (rightNeighbor totalKnights id) = false ∧
      sel s (rightNeighbor totalKnights id) = false := by
  constructor
  · intro h
    simp [shouldRaise, getNeighbors] at h
    tauto
  · intro h
    simp [shouldRaise, getNeighbors]
    tauto

/-- A raise attempt never touches the selected flags. -/
theorem sel_raise (totalKnights : Nat) (s : KSState) (id j : Nat) :
    sel (raiseHand totalKnights s id) j = sel s j := by
  unfold raiseHand tryMarkSignaling
  split <;> rfl

/-- A raise attempt never touches the selection counter. -/
theorem count_raise (totalKnights : Nat) (s : KSState) (id : Nat) :
    (raiseHand totalKnights s id).selectedCount = s.selectedCount := by
  unfold raiseHand tryMarkSignaling
  split <;> rfl

/-- A raise attempt keeps the selected array unchanged. -/
theorem selected_raise (totalKnights : Nat) (s : KSState) (id : Nat) :
    (raiseHand totalKnights s id).selected = s.selected := by
  unfold raiseHand tryMarkSignaling
  split <;> rfl

/-- A raise attempt keeps the length of the hand array. -/
theorem lenHr_raise (totalKnights : Nat) (s : KSState) (id : Nat) :
    (raiseHand totalKnights s id).handRaised.length = s.handRaised.length := by
  unfold raiseHand tryMarkSignaling
  split
  · exact List.length_set ..
  · rfl

/-- Hand flags after a successful raise. -/
theorem hr_raise_eq (totalKnights : Nat) (s : KSState) (id : Nat)
    (hsr : shouldRaise totalKnights s id = true)
    (hlen : s.handRaised.length = totalKnights) (hid : id < totalKnights) :
    ∀ j, hr (raiseHand totalKnights s id) j = if j = id then true else hr s j := by
  intro j
  unfold raiseHand tryMarkSignaling
  rw [if_pos hsr]
  show (s.handRaised.set id true).getD j false = _
  by_cases h : j = id
  · subst h
    rw [if_pos rfl, getD_set_self _ _ _ (by omega)]
  · rw [if_neg h, getD_set_ne _ _ _ _ (Ne.symm h)]
    rfl

/-- A failed raise attempt changes nothing. -/
theorem raise_noop (totalKnights : Nat) (s : KSState) (id : Nat)
    (hsr : shouldRaise totalKnights s id = false) : raiseHand totalKnights s id = s := by
  simp [raiseHand, tryMarkSignaling, hsr]

/-- Lowering a hand never touches the selected flags. -/
theorem selected_lower (s : KSState) (id : Nat) : (lowerHand s id).selected = s.selected := by
  unfold lowerHand
  split <;> rfl

/-- Lowering a hand never touches the selection counter. -/
theorem count_lower (s : KSState) (id : Nat) :
    (lowerHand s id).selectedCount = s.selectedCount := by
  unfold lowerHand
  split <;> rfl

/-- Lowering a hand keeps the length of the hand array. -/
theorem lenHr_lower (s : KSState) (id : Nat) :
    (lowerHand s id).handRaised.length = s.handRaised.length := by
  unfold lowerHand
  split
  · exact List.length_set ..
  · rfl

/-- A hand still raised after a lowering step was raised before. -/
theorem hr_lower_imp (s : KSState) (id j : Nat) (h : hr (lowerHand s id) j = true) :
    hr s j = true := by
  unfold lowerHand at h
  split at h
  · simp only [hr] at h ⊢
    exact getD_clear_true _ _ _ h
  · exact h

/-- The Boolean commit guard, spelled out. -/
theorem commit_guard_iff (s : KSState) (id : Nat) :
    (!sel s id && hr s id) = true ↔ sel s id = false ∧ hr s id = true := by
  constructor
  · intro h
    simp at h
    tauto
  · intro h
    simp [h.1, h.2]

/-- A commit whose double check fails changes nothing. -/
theorem commit_noop (totalKnights : Nat) (s : KSState) (id : Nat)
    (h : ¬(sel s id = false ∧ hr s id = true)) : commitKnight totalKnights s id = s := by
  unfold commitKnight
  rw [if_neg (fun hc => h ((commit_guard_iff s id).mp hc))]

/-- The three fields written by a successful commit. -/
theorem commit_fields (totalKnights : Nat) (s : KSState) (id : Nat)
    (hg : sel s id = false ∧ hr s id = true) :
    (commitKnight totalKnights s id).selected = s.selected.set id true ∧
    (commitKnight totalKnights s id).handRaised =
      ((s.handRaised.set id false).set (leftNeighbor totalKnights id) false).set
        (rightNeighbor totalKnights id) false ∧
    (commitKnight totalKnights s id).selectedCount = s.selectedCount + 1 := by
  unfold commitKnight
  rw [if_pos ((commit_guard_iff s id).mpr hg)]
  exact ⟨rfl, rfl, rfl⟩

/-- Selected flags after a successful commit. -/
theorem sel_commit (totalKnights : Nat) (s : KSState) (id : Nat)
    (hg : sel s id = false ∧ hr s id = true)
    (hlen : s.selected.length = totalKnights) (hid : id < totalKnights) :
    ∀ j, sel (commitKnight totalKnights s id) j = if j = id then true else sel s j := by
  intro j
  have hf := (commit_fields totalKnights s id hg).1
  simp only [sel, hf]
  by_cases h : j = id
  · subst h
    rw [if_pos rfl, getD_set_self _ _ _ (by omega)]
  · rw [if_neg h, getD_set_ne _ _ _ _ (Ne.symm h)]

/-- Hand flags after a successful commit: the hands of the candidate and of
both its neighbors are down, the rest is untouched. -/
theorem hr_commit (totalKnights : Nat) (s : KSState) (id : Nat)
    (hg : sel s id = false ∧ hr s id = true)
    (hlen : s.handRaised.length = totalKnights) (hid : id < totalKnights) :
    ∀ j, hr (commitKnight totalKnights s id) j =
      if j = id ∨ j = leftNeighbor totalKnights id ∨ j = rightNeighbor totalKnights id then
        false
      else hr s j := by
  intro j
  have hN : 0 < totalKnights := by omega
  have hf := (commit_fields totalKnights s id hg).2.1
  simp only [hr, hf]
  by_cases h3 : j = rightNeighbor totalKnights id
  · rw [if_pos (Or.inr (Or.inr h3))]
    subst h3
    refine getD_set_self _ _ _ ?_
    rw [List.length_set, List.length_set, hlen]
    exact right_lt totalKnights id hN
  · rw [getD_set_ne _ _ _ _ (Ne.symm h3)]
    by_cases h2 : j = leftNeighbor totalKnights id
    · rw [if_pos (Or.inr (Or.inl h2))]
      subst h2
      refine getD_set_self _ _ _ ?_
      rw [List.length_set, hlen]
      exact left_lt totalKnights id hN
    · rw [getD_set_ne _ _ _ _ (Ne.symm h2)]
      by_cases h1 : j = id
      · rw [if_pos (Or.inl h1)]
        subst h1
        exact getD_set_self _ _ _ (by omega)
      · rw [getD_set_ne _ _ _ _ (Ne.symm h1), if_neg (by tauto)]

/-- Lengths after a successful commit. -/
theorem commit_lengths (totalKnights : Nat) (s : KSState) (id : Nat)
    (hg : sel s id = false ∧ hr s id = true) :
    (commitKnight totalKnights s id).selected.length = s.selected.length ∧
    (commitKnight totalKnights s id).handRaised.length = s.handRaised.length := by
  obtain ⟨h1, h2, _⟩ := commit_fields totalKnights s id hg
  constructor
  · rw [h1, List.length_set]
  · rw [h2, List.length_set, List.length_set, List.length_set]

/-- A commit raises the counter by at most one. -/
theorem commit_count_le (totalKnights : Nat) (s : KSState) (id : Nat) :
    (commitKnight totalKnights s id).selectedCount ≤ s.selectedCount + 1 := by
  unfold commitKnight
  split
  · exact le_rfl
  · omega

/-- After a reset every hand is down. -/
theorem hr_reset (s : KSState) (j : Nat) : hr (resetAllSignaling s) j = false := by
  simp only [hr, resetAllSignaling]
  exact getD_map_const _ _

/-- The initial state satisfies the invariant. -/
theorem inv_init (totalKnights : Nat) : Inv totalKnights (ksInit totalKnights) := by
  refine ⟨?_, ?_, ?_, ?_, ?_⟩
  · exact List.length_replicate ..
  · exact List.length_replicate ..
  · exact (count_replicate_false totalKnights).symm
  · intro i hi hhr
    exact absurd hhr (by simp [hr, ksInit, getD_replicate_false])
  · intro i j hi hj hne hsi
    exact absurd hsi (by simp [sel, ksInit, getD_replicate_false])

/-- A worker raise step preserves the invariant. -/
theorem inv_raise (totalKnights : Nat) (s : KSState) (id : Nat) (hid : id < totalKnights)
    (hInv : Inv totalKnights s) : Inv totalKnights (raiseHand totalKnights s id) := by
  by_cases hsr : shouldRaise totalKnights s id = true
  case neg =>
    rw [raise_noop totalKnights s id (by simpa using hsr)]
    exact hInv
  case pos =>
  obtain ⟨hs1, hs2, hs3, hs4, hs5, hs6⟩ := (shouldRaise_spec totalKnights s id).mp hsr
  refine ⟨?_, ?_, ?_, ?_, ?_⟩
  · rw [selected_raise]
    exact hInv.lenSel
  · rw [lenHr_raise]
    exact hInv.lenHr
  · rw [count_raise, selected_raise]
    exact hInv.countEq
  · intro i hi hhr
    rw [hr_raise_eq totalKnights s id hsr hInv.lenHr hid i] at hhr
    simp only [sel, selected_raise]
    by_cases h : i = id
    · subst h
      exact ⟨hs4, hs6⟩
    · rw [if_neg h] at hhr
      exact hInv.hrFree i hi hhr
  · intro i j hi hj hne hsi hsj
    rw [sel_raise] at hsi hsj
    exact hInv.indep i j hi hj hne hsi hsj

/-- A worker lower step preserves the invariant. -/
theorem inv_lower (totalKnights : Nat) (s : KSState) (id : Nat)
    (hInv : Inv totalKnights s) : Inv totalKnights (lowerHand s id) := by
  refine ⟨?_, ?_, ?_, ?_, ?_⟩
  · rw [selected_lower]
    exact hInv.lenSel
  · rw [lenHr_lower]
    exact hInv.lenHr
  · rw [count_lower, selected_lower]
    exact hInv.countEq
  · intro i hi hhr
    simp only [sel, selected_lower]
    exact hInv.hrFree i hi (hr_lower_imp s id i hhr)
  · intro i j hi hj hne hsi hsj
    simp only [sel, selected_lower] at hsi hsj
    exact hInv.indep i j hi hj hne hsi hsj

/-- A coordinator commit step preserves the invariant. -/
theorem inv_commit (totalKnights : Nat) (s : KSState) (id : Nat) (hid : id < totalKnights)
    (hInv : Inv totalKnights s) : Inv totalKnights (commitKnight totalKnights s id) := by
  by_cases hg : sel s id = false ∧ hr s id = true
  case neg =>
    rw [commit_noop totalKnights s id hg]
    exact hInv
  case pos =>
  obtain ⟨hL, hR⟩ := hInv.hrFree id hid hg.2
  have hsel := sel_commit totalKnights s id hg hInv.lenSel hid
  have hhr := hr_commit totalKnights s id hg hInv.lenHr hid
  have hlen := commit_lengths totalKnights s id hg
  refine ⟨?_, ?_, ?_, ?_, ?_⟩
  · rw [hlen.1]
    exact hInv.lenSel
  · rw [hlen.2]
    exact hInv.lenHr
  · rw [(commit_fields totalKnights s id hg).2.2, (commit_fields totalKnights s id hg).1,
      count_set_true s.selected id (by have := hInv.lenSel; omega) hg.1, hInv.countEq]
  · intro i hi hhri
    rw [hhr i] at hhri
    by_cases hmem : i = id ∨ i = leftNeighbor totalKnights id ∨ i = rightNeighbor totalKnights id
    · rw [if_pos hmem] at hhri
      exact absurd hhri (by simp)
    · rw [if_neg hmem] at hhri
      push_neg at hmem
      obtain ⟨hfL, hfR⟩ := hInv.hrFree i hi hhri
      constructor
      · rw [hsel (leftNeighbor totalKnights i)]
        have hne2 : leftNeighbor totalKnights i ≠ id := by
          intro hcontra
          exact hmem.2.2 ((left_eq_iff totalKnights i id hi hid).mp hcontra)
        rw [if_neg hne2]
        exact hfL
      · rw [hsel (rightNeighbor totalKnights i)]
        have hne2 : rightNeighbor totalKnights i ≠ id := by
          intro hcontra
          exact hmem.2.1 ((right_eq_iff totalKnights i id hi hid).mp hcontra)
        rw [if_neg hne2]
        exact hfR
  · intro i j hi hj hne hsi hsj
    rw [hsel i] at hsi
    rw [hsel j] at hsj
    by_cases hii : i = id
    · subst hii
      rw [if_neg (Ne.symm hne)] at hsj
      refine ⟨fun hcontra => ?_, fun hcontra => ?_⟩
      · subst hcontra
        exact absurd hsj (by simp [hL])
      · subst hcontra
        exact absurd hsj (by simp [hR])
    · rw [if_neg hii] at hsi
      by_cases hjj : j = id
      · subst hjj
        refine ⟨fun hcontra => ?_, fun hcontra => ?_⟩
        · have h5 : i = rightNeighbor totalKnights j :=
            (left_eq_iff totalKnights i j hi hj).mp hcontra.symm
          rw [h5] at hsi
          exact absurd hsi (by simp [hR])
        · have h5 : i = leftNeighbor totalKnights j :=
            (right_eq_iff totalKnights i j hi hj).mp hcontra.symm
          rw [h5] at hsi
          exact absurd hsi (by simp [hL])
      · rw [if_neg hjj] at hsj
        exact hInv.indep i j hi hj hne hsi hsj

/-- A coordinator reset step preserves the invariant. -/
theorem inv_reset (s : KSState) (totalKnights : Nat) (hInv : Inv totalKnights s) :
    Inv totalKnights (resetAllSignaling s) := by
  refine ⟨hInv.lenSel, ?_, hInv.countEq, ?_, hInv.indep⟩
  · exact (List.length_map ..).trans hInv.lenHr
  · intro i hi hhr
    exact absurd hhr (by simp [hr_reset])

/-- Every atomic critical section preserves the invariant. -/
theorem inv_step (totalKnights : Nat) (s t : KSState) (hstep : KStep totalKnights s t)
    (hInv : Inv totalKnights s) : Inv totalKnights t := by
  cases hstep with
  | raise id h => exact inv_raise totalKnights s id h hInv
  | lower id h => exact inv_lower totalKnights s id hInv
  | commit id h => exact inv_commit totalKnights s id h hInv
  | reset => exact inv_reset s totalKnights hInv

/-- Every reachable state satisfies the invariant. -/
theorem inv_reachable (totalKnights : Nat) (s : KSState)
    (h : Reachable totalKnights s) : Inv totalKnights s := by
  induction h with
  | init => exact inv_init totalKnights
  | step hre hstep ih => exact inv_step totalKnights _ _ hstep ih

/-- Claim C1: in every state reachable by any interleaving of the worker
hand-raise, worker hand-lower, coordinator commit and reset-all operations,
no two distinct selected knights are ring-adjacent: their ring distance
min(|i - j|, N - |i - j|) is never 1. -/
theorem knight_adjacency_exclusion (totalKnights : Nat) (s : KSState)
    (hre : Reachable totalKnights s) (i j : Nat)
    (hi : i < totalKnights) (hj : j < totalKnights) (hne : i ≠ j)
    (hsi : sel s i = true) (hsj : sel s j = true) : ringDist totalKnights i j ≠ 1 := by
  intro hd
  have hInv := inv_reachable totalKnights s hre
  have h2 := hInv.indep i j hi hj hne hsi hsj
  rcases ringDist_eq_one totalKnights i j hi hj hne hd with h | h
  · exact h2.1 h
  · exact h2.2 h

theorem knight_adjacency_exclusion_witness :
    sel wStateC1 0 = true ∧ sel wStateC1 2 = true ∧ ringDist 5 0 2 ≠ 1 := by
  refine ⟨by decide, by decide, ?_⟩
  exact knight_adjacency_exclusion 5 wStateC1
    (Reachable.step (Reachable.step (Reachable.step (Reachable.step Reachable.init
      (KStep.raise _ 0 (by decide))) (KStep.commit _ 0 (by decide)))
      (KStep.raise _ 2 (by decide))) (KStep.commit _ 2 (by decide)))
    0 2 (by decide) (by decide) (by decide) (by decide) (by decide)

/-- Counterexample to claim C2 as stated: the commit double check does not
re-validate the neighbors. In wStateC2 the left neighbor of knight 1 is
already selected, yet committing knight 1 is not a no-op: it selects
knight 1. -/
theorem commit_neighbor_check_counterexample :
    sel wStateC2 (leftNeighbor 3 1) = true ∧
    sel (commitKnight 3 wStateC2 1) 1 = true ∧
    (commitKnight 3 wStateC2 1).selectedCount = 2 := by decide

/-- Claim C2 (amended): when the coordinator commits a sampled candidate
id, it re-validates under the lock only that id is still signaling and not
already selected; the neighbor selected flags are not re-checked at commit
time. If both checks hold it sets selected[id], clears the signaling flag
of id and of both its ring-neighbors, and increments selectedCount by one;
otherwise the commit is a no-op on the state. The omitted neighbor
re-check is unobservable in actual runs: in every reachable state a
signaling knight has no selected ring-neighbor, so a candidate passing the
two checks never has a selected neighbor. -/
theorem commit_contract (totalKnights : Nat) (s : KSState) (id : Nat)
    (hid : id < totalKnights) (hlen1 : s.selected.length = totalKnights)
    (hlen2 : s.handRaised.length = totalKnights) :
    (sel s id = false ∧ hr s id = true →
      (∀ j, sel (commitKnight totalKnights s id) j = if j = id then true else sel s j) ∧
      (∀ j, hr (commitKnight totalKnights s id) j =
        if j = id ∨ j = leftNeighbor totalKnights id ∨ j = rightNeighbor totalKnights id then
          false
        else hr s j) ∧
      (commitKnight totalKnights s id).selectedCount = s.selectedCount + 1) ∧
    (sel s id = true ∨ hr s id = false → commitKnight totalKnights s id = s) ∧
    (∀ t : KSState, Reachable totalKnights t → hr t id = true →
      sel t (leftNeighbor totalKnights id) = false ∧
      sel t (rightNeighbor totalKnights id) = false) := by
  refine ⟨?_, ?_, ?_⟩
  · intro hg
    exact ⟨sel_commit totalKnights s id hg hlen1 hid,
      hr_commit totalKnights s id hg hlen2 hid,
      (commit_fields totalKnights s id hg).2.2⟩
  · intro hbad
    refine commit_noop totalKnights s id ?_
    rcases hbad with h | h
    · intro hc
      rw [h] at hc
      exact absurd hc.1 (by simp)
    · intro hc
      rw [h] at hc
      exact absurd hc.2 (by simp)
  · intro t hre hhr
    exact (inv_reachable totalKnights t hre).hrFree id hid hhr

theorem commit_contract_witness :
    (commitKnight 3 wStateC2b 1).selectedCount = wStateC2b.selectedCount + 1 :=
  ((commit_contract 3 wStateC2b 1 (by decide) (by decide) (by decide)).1
    ⟨by decide, by decide⟩).2.2

/-- Counterexample to claim C3 as stated: none of the three claimed refusal
conditions holds for knight 1 in wStateC3 (knight 1 is not selected, not
signaling, and neither neighbor is signaling), yet the check-and-set
returns false and raises no hand. -/
theorem raise_claim_counterexample :
    sel wStateC3 1 = false ∧ hr wStateC3 1 = false ∧
    hr wStateC3 (leftNeighbor 3 1) = false ∧ hr wStateC3 (rightNeighbor 3 1) = false ∧
    (tryMarkSignaling 3 wStateC3 1).1 = false ∧
    hr (tryMarkSignaling 3 wStateC3 1).2 1 = false := by decide

/-- Claim C3 (amended): the worker check-and-set returns false exactly when
the knight is selected, or its hand is already raised, or either
ring-neighbor is signaling, or either ring-neighbor is selected; in every
other state it raises the hand and returns true, touching nothing else; on
false it changes no state. -/
theorem raise_contract (totalKnights : Nat) (s : KSState) (id : Nat)
    (hid : id < totalKnights) (hlen : s.handRaised.length = totalKnights) :
    ((tryMarkSignaling totalKnights s id).1 = false ↔
      (sel s id = true ∨ hr s id = true ∨
        hr s (leftNeighbor totalKnights id) = true ∨
        sel s (leftNeighbor totalKnights id) = true ∨
        hr s (rightNeighbor totalKnights id) = true ∨
        sel s (rightNeighbor totalKnights id) = true)) ∧
    ((tryMarkSignaling totalKnights s id).1 = true →
      (∀ j, hr (tryMarkSignaling totalKnights s id).2 j = if j = id then true else hr s j) ∧
      ((tryMarkSignaling totalKnights s id).2).selected = s.selected ∧
      ((tryMarkSignaling totalKnights s id).2).selectedCount = s.selectedCount) ∧
    ((tryMarkSignaling totalKnights s id).1 = false →
      (tryMarkSignaling totalKnights s id).2 = s) := by
  have hfst : (tryMarkSignaling totalKnights s id).1 = shouldRaise totalKnights s id := by
    unfold tryMarkSignaling
    split
    · rename_i h
      rw [h]
    · rename_i h
      simp at h
      rw [h]
  refine ⟨?_, ?_, ?_⟩
  · rw [hfst]
    constructor
    · intro h
      by_contra hc
      push_neg at hc
      simp only [Bool.not_eq_true] at hc
      have : shouldRaise totalKnights s id = true :=
        (shouldRaise_spec totalKnights s id).mpr
          ⟨hc.1, hc.2.1, hc.2.2.1, hc.2.2.2.1, hc.2.2.2.2.1, hc.2.2.2.2.2⟩
      rw [this] at h
      exact absurd h (by simp)
    · intro h
      by_contra hc
      simp only [Bool.not_eq_false] at hc
      obtain ⟨h1, h2, h3, h4, h5, h6⟩ := (shouldRaise_spec totalKnights s id).mp hc
      rcases h with h | h | h | h | h | h
      · rw [h1] at h; exact absurd h (by simp)
      · rw [h2] at h; exact absurd h (by simp)
      · rw [h3] at h; exact absurd h (by simp)
      · rw [h4] at h; exact absurd h (by simp)
      · rw [h5] at h; exact absurd h (by simp)
      · rw [h6] at h; exact absurd h (by simp)
  · intro h
    rw [hfst] at h
    exact ⟨hr_raise_eq totalKnights s id h hlen hid,
      selected_raise totalKnights s id, count_raise totalKnights s id⟩
  · intro h
    rw [hfst] at h
    have := raise_noop totalKnights s id h
    unfold raiseHand at this
    exact this

theorem raise_contract_witness :
    hr (tryMarkSignaling 3 (ksInit 3) 1).2 1 = true := by
  have h := ((raise_contract 3 (ksInit 3) 1 (by decide) (by decide)).2.1 (by decide)).1 1
  simpa using h

/-- Counterexample to claim C4 as stated: in wStateC2 the eligible snapshot
is empty (knight 1 signals but its neighbor 0 is selected), yet the
coordinator iteration with attempt counter 1 does not reset the signaling
flags: the hand of knight 1 stays raised. -/
theorem reset_on_empty_counterexample :
    snapshotEligible 3 wStateC2 = [] ∧ hr wStateC2 1 = true ∧
    hr (coordIteration 3 wStateC2 1 0) 1 = true := by decide

/-- Claim C4 (amended): the coordinator does not reset on empty snapshots;
it clears every signaling flag precisely on the iterations whose
post-increment attempt counter is divisible by 20, and an iteration with an
empty snapshot and a counter not divisible by 20 leaves the state
unchanged. -/
theorem reset_policy (totalKnights : Nat) (s : KSState) (attempts pick : Nat) :
    (attempts % 20 = 0 →
      ∀ j, hr (coordIteration totalKnights s attempts pick) j = false) ∧
    (attempts % 20 ≠ 0 → snapshotEligible totalKnights s = [] →
      coordIteration totalKnights s attempts pick = s) := by
  constructor
  · intro h j
    simp only [coordIteration]
    rw [if_pos (by simp [h])]
    exact hr_reset _ j
  · intro h hempty
    simp only [coordIteration]
    rw [if_neg (by simp [h]), hempty]
    simp

theorem reset_policy_witness :
    hr (coordIteration 3 wStateC2 20 0) 1 = false ∧
    coordIteration 3 wStateC2 7 0 = wStateC2 :=
  ⟨(reset_policy 3 wStateC2 20 0).1 (by decide) 1,
    (reset_policy 3 wStateC2 7 0).2 (by decide) (by decide)⟩

/-- Counterexample to claim C5 as stated: for totalActors = -1 (which
satisfies totalActors <= 0) construction does not raise
InvalidConfiguration, because the member initializers fault on the wrapped
negative size before the guard in the constructor body can run. -/
theorem construction_negative_counterexample :
    ((-1 : Int) ≤ 0) ∧
    isInvalidConfig (mkKnightSelection (-1) 1) = false ∧
    mkKnightSelection (-1) 1 = Except.error ConfigError.memberInitFailure :=
  ⟨by decide, by decide, rfl⟩

/-- Claim C5 (amended): construction raises InvalidConfiguration exactly
when totalActors >= 0 and (totalActors <= 0, or required <= 0, or
required > totalActors); for negative totalActors the member initializers
fail first with a different error, never InvalidConfiguration. The
concrete cases hold as claimed: new(0, 1), new(5, 0) and new(5, 6) raise
it and new(5, 5) succeeds. -/
theorem construction_guard :
    (∀ totalActors required : Int,
      isInvalidConfig (mkKnightSelection totalActors required) = true ↔
        (0 ≤ totalActors ∧
          (totalActors ≤ 0 ∨ required ≤ 0 ∨ required > totalActors))) ∧
    isInvalidConfig (mkKnightSelection 0 1) = true ∧
    isInvalidConfig (mkKnightSelection 5 0) = true ∧
    isInvalidConfig (mkKnightSelection 5 6) = true ∧
    isInvalidConfig (mkKnightSelection 5 5) = false := by
  refine ⟨fun t r => ?_, by decide, by decide, by decide, by decide⟩
  by_cases hneg : t < 0
  · have h1 : mkKnightSelection t r = Except.error ConfigError.memberInitFailure := by
      unfold mkKnightSelection
      rw [if_pos hneg]
    rw [h1]
    simp only [isInvalidConfig]
    constructor
    · intro h
      exact absurd h (by simp)
    · intro h
      exact absurd h.1 (by omega)
  · by_cases hg : t ≤ 0 ∨ r ≤ 0 ∨ r > t
    · have h1 : mkKnightSelection t r = Except.error ConfigError.invalidConfiguration := by
        unfold mkKnightSelection
        rw [if_neg hneg, if_pos hg]
      rw [h1]
      simp only [isInvalidConfig]
      constructor
      · intro _
        exact ⟨by omega, hg⟩
      · intro _
        trivial
    · have h1 : mkKnightSelection t r = Except.ok (ksInit t.toNat) := by
        unfold mkKnightSelection
        rw [if_neg hneg, if_neg hg]
      rw [h1]
      simp only [isInvalidConfig]
      constructor
      · intro h
        exact absurd h (by simp)
      · intro h
        exact absurd h.2 hg

/-- Counterexample to claim C6 as stated: constructing a run with 4 total
actors and 3 required selections is accepted, not rejected. -/
theorem infeasible_rejected_counterexample :
    isInvalidConfig (mkKnightSelection 4 3) = false := by decide

/-- The coordinator iteration is a no-op on the four-knight initial state:
the snapshot is empty and a reset rewrites the all-false hand array to
itself. -/
theorem coordIteration_init4 (a p : Nat) : coordIteration 4 (ksInit 4) a p = ksInit 4 := by
  have hsnap : snapshotEligible 4 (ksInit 4) = [] := by decide
  have hreset : resetAllSignaling (ksInit 4) = ksInit 4 := by decide
  simp [coordIteration, hsnap, hreset]

/-- With no worker interference the four-knight loop spins through its
whole budget without selecting anyone. -/
theorem runLoop_degraded4 (fuel a : Nat) :
    runLoop 4 3 (fun _ u => u) (fun _ => 0) fuel a (ksInit 4) = (ksInit 4, a + fuel) := by
  induction fuel generalizing a with
  | zero => simp [runLoop]
  | succ fuel ih =>
    have hlt : (ksInit 4).selectedCount < 3 := by decide
    simp only [runLoop, hlt, if_true]
    rw [coordIteration_init4, ih]
    simp only [Prod.mk.injEq, true_and]
    omega

/-- Claim C6 (amended): the constructor accepts N = 4, K = 3 even though no
independent set of size 3 exists on a 4-ring (the guard only rejects
K > N); such a run is allowed to proceed and, with no eligible candidate,
terminates only by exhausting the 1000-attempt budget with zero knights
selected. -/
theorem infeasible_accepted :
    isInvalidConfig (mkKnightSelection 4 3) = false ∧
    runLoop 4 3 (fun _ u => u) (fun _ => 0) 1000 0 (ksInit 4) = (ksInit 4, 1000) ∧
    (ksInit 4).selectedCount = 0 := by
  refine ⟨by decide, ?_, rfl⟩
  have h := runLoop_degraded4 1000 0
  simpa using h

/-- Counterexample to claim C7 as stated: an array with three true entries
is validated as correct for required count 2: the validator only rejects
fewer than K selections, not more. -/
theorem validator_exact_count_counterexample :
    countSelected 6 [true, false, true, false, true, false] = 3 ∧
    validateSelection 6 2 [true, false, true, false, true, false] = true := by decide

/-- Claim C7 (amended): the validator returns true if and only if at least
K entries of the array are true and no true entry has a true
ring-neighbor; an array with more than K true entries still validates when
no two are adjacent. -/
theorem validator_characterization (totalKnights requiredKnights : Nat)
    (selected : List Bool) :
    validateSelection totalKnights requiredKnights selected = true ↔
      (requiredKnights ≤ countSelected totalKnights selected ∧
        ∀ i, i < totalKnights → selected.getD i false = true →
          selected.getD (leftNeighbor totalKnights i) false = false ∧
          selected.getD (rightNeighbor totalKnights i) false = false) := by
  unfold validateSelection
  by_cases hc : countSelected totalKnights selected < requiredKnights
  · rw [if_pos hc]
    constructor
    · intro h
      exact absurd h (by simp)
    · rintro ⟨h1, _⟩
      exact absurd h1 (by omega)
  · rw [if_neg hc]
    rw [List.all_eq_true]
    constructor
    · intro h
      refine ⟨by omega, fun i hi hsel => ?_⟩
      have h2 := h i (List.mem_range.mpr hi)
      simp only [getNeighbors, List.all_cons, List.all_nil, Bool.and_true, hsel,
        Bool.not_true, Bool.false_or, Bool.and_eq_true, Bool.not_eq_true'] at h2
      exact h2
    · rintro ⟨hK, h⟩ i hmem
      have hi := List.mem_range.mp hmem
      by_cases hsel : selected.getD i false = true
      · obtain ⟨hL, hR⟩ := h i hi hsel
        simp only [getNeighbors, List.all_cons, List.all_nil, hsel, hL, hR]
        decide
      · simp only [Bool.not_eq_true] at hsel
        simp only [hsel, Bool.not_false, Bool.true_or]

/-- A worker step never touches the selection counter. -/
theorem workerStep_count (totalKnights : Nat) (u v : KSState)
    (h : WorkerStep totalKnights u v) : v.selectedCount = u.selectedCount := by
  rcases h with ⟨id, h | h⟩
  · rw [h]
    exact count_raise totalKnights u id
  · rw [h]
    exact count_lower u id

/-- A sequence of worker steps never touches the selection counter. -/
theorem workerSteps_count (totalKnights : Nat) (u v : KSState)
    (h : Relation.ReflTransGen (WorkerStep totalKnights) u v) :
    v.selectedCount = u.selectedCount := by
  induction h with
  | refl => rfl
  | tail _ hbc ih => rw [workerStep_count totalKnights _ _ hbc, ih]

/-- One coordinator iteration raises the counter by at most one. -/
theorem coordIteration_count_le (totalKnights : Nat) (s : KSState) (a p : Nat) :
    (coordIteration totalKnights s a p).selectedCount ≤ s.selectedCount + 1 := by
  simp only [coordIteration]
  have h1 : ∀ t : KSState,
      (if (a % 20 == 0) = true then resetAllSignaling t else t).selectedCount
        = t.selectedCount := by
    intro t
    split <;> rfl
  rw [h1]
  split
  · omega
  · exact commit_count_le ..

/-- The loop invariant of the coordinator loop: the counter never exceeds
the requirement, the loop either reaches the requirement or consumes the
whole budget, and the attempt counter is bounded by the budget. -/
theorem runLoop_invariant (totalKnights requiredKnights : Nat)
    (oracle : Nat → KSState → KSState) (pick : Nat → Nat)
    (hor : WorkerInterference totalKnights oracle) :
    ∀ (fuel a : Nat) (s : KSState), s.selectedCount ≤ requiredKnights →
      (runLoop totalKnights requiredKnights oracle pick fuel a s).1.selectedCount
          ≤ requiredKnights ∧
      ((runLoop totalKnights requiredKnights oracle pick fuel a s).1.selectedCount
          = requiredKnights ∨
        (runLoop totalKnights requiredKnights oracle pick fuel a s).2 = a + fuel) ∧
      (runLoop totalKnights requiredKnights oracle pick fuel a s).2 ≤ a + fuel := by
  intro fuel
  induction fuel with
  | zero =>
    intro a s hs
    exact ⟨hs, Or.inr rfl, le_rfl⟩
  | succ fuel ih =>
    intro a s hs
    by_cases hlt : s.selectedCount < requiredKnights
    · simp only [runLoop, hlt, if_true]
      have hcount :
          (coordIteration totalKnights (oracle a s) (a + 1) (pick a)).selectedCount
            ≤ requiredKnights := by
        have h1 := workerSteps_count totalKnights s (oracle a s) (hor a s)
        have h2 := coordIteration_count_le totalKnights (oracle a s) (a + 1) (pick a)
        omega
      have h3 := ih (a + 1) (coordIteration totalKnights (oracle a s) (a + 1) (pick a)) hcount
      refine ⟨h3.1, ?_, by omega⟩
      rcases h3.2.1 with h | h
      · exact Or.inl h
      · exact Or.inr (by omega)
    · simp only [runLoop, hlt, if_false]
      exact ⟨hs, Or.inl (by omega), by omega⟩

/-- Claim C8: starting from the initial state, under any worker
interference the final selection count never exceeds K, the loop ends
exactly with the count at K or with the 1000-attempt budget consumed, and
it performs at most 1000 iterations. -/
theorem loop_budget_and_count (totalKnights requiredKnights : Nat)
    (oracle : Nat → KSState → KSState) (pick : Nat → Nat)
    (hor : WorkerInterference totalKnights oracle) :
    (runLoop totalKnights requiredKnights oracle pick 1000 0
        (ksInit totalKnights)).1.selectedCount ≤ requiredKnights ∧
    ((runLoop totalKnights requiredKnights oracle pick 1000 0
        (ksInit totalKnights)).1.selectedCount = requiredKnights ∨
      (runLoop totalKnights requiredKnights oracle pick 1000 0
        (ksInit totalKnights)).2 = 1000) ∧
    (runLoop totalKnights requiredKnights oracle pick 1000 0
        (ksInit totalKnights)).2 ≤ 1000 := by
  have h := runLoop_invariant totalKnights requiredKnights oracle pick hor 1000 0
    (ksInit totalKnights) (Nat.zero_le requiredKnights)
  simpa using h

theorem loop_budget_and_count_witness :
    (runLoop 3 1 (fun _ s => raiseHand 3 s 0) (fun _ => 0) 1000 0
        (ksInit 3)).1.selectedCount ≤ 1 ∧
    ((runLoop 3 1 (fun _ s => raiseHand 3 s 0) (fun _ => 0) 1000 0
        (ksInit 3)).1.selectedCount = 1 ∨
      (runLoop 3 1 (fun _ s => raiseHand 3 s 0) (fun _ => 0) 1000 0
        (ksInit 3)).2 = 1000) ∧
    (runLoop 3 1 (fun _ s => raiseHand 3 s 0) (fun _ => 0) 1000 0
        (ksInit 3)).2 ≤ 1000 :=
  loop_budget_and_count 3 1 (fun _ s => raiseHand 3 s 0) (fun _ => 0)
    (fun _ _ => Relation.ReflTransGen.single ⟨0, Or.inl rfl⟩)

/-- Claim C9: the selected-ids accessor returns a strictly ascending list
without duplicates whose members are exactly the indices below N whose
selected flag is true. -/
theorem selected_ids_sorted_bounds (totalKnights : Nat) (selected : List Bool) :
    List.Pairwise (fun a b => a < b) (getSelectedKnights totalKnights selected) ∧
    (getSelectedKnights totalKnights selected).Nodup ∧
    ∀ x, x ∈ getSelectedKnights totalKnights selected ↔
      (x < totalKnights ∧ selected.getD x false = true) := by
  refine ⟨?_, ?_, ?_⟩
  · exact (List.pairwise_lt_range totalKnights).filter _
  · exact List.Pairwise.imp (fun h => Nat.ne_of_lt h)
      ((List.pairwise_lt_range totalKnights).filter _)
  · intro x
    simp [getSelectedKnights, List.mem_filter, List.mem_range]

/-- Claim C10: a single-knight run is accepted by the constructor, knight 0
is its own left and right neighbor, and any reachable state with one
selection fails validation, so an N = 1, K = 1 run can never validate. -/
theorem single_knight_never_valid (s : KSState) (hre : Reachable 1 s)
    (hc : s.selectedCount = 1) :
    isInvalidConfig (mkKnightSelection 1 1) = false ∧ getNeighbors 1 0 = [0, 0] ∧
    validateSelection 1 1 s.selected = false := by
  refine ⟨by decide, by decide, ?_⟩
  have hInv := inv_reachable 1 s hre
  have hlen : s.selected.length = 1 := hInv.lenSel
  have hcount : s.selected.count true = 1 := by
    rw [← hInv.countEq]
    exact hc
  have hsel : s.selected = [true] := by
    rcases hval : s.selected with _ | ⟨b, t⟩
    · rw [hval] at hlen
      simp at hlen
    · rw [hval] at hlen
      have ht : t = [] := List.length_eq_zero.mp (by simpa using hlen)
      subst ht
      cases b
      · rw [hval] at hcount
        simp at hcount
      · rfl
  rw [hsel]
  decide

theorem single_knight_never_valid_witness :
    validateSelection 1 1 (commitKnight 1 (raiseHand 1 (ksInit 1) 0) 0).selected = false :=
  (single_knight_never_valid (commitKnight 1 (raiseHand 1 (ksInit 1) 0) 0)
    (Reachable.step (Reachable.step Reachable.init (KStep.raise _ 0 (by decide)))
      (KStep.commit _ 0 (by decide))) (by decide)).2.2

end KnightSelection
